import Mathlib

/-!
Verification development for the MediaFlow distributed transcoding backend.

The Python sources are shallowly embedded: Python `str` values that undergo
slicing, concatenation or substring search are modelled as `List Char`
(abbreviated `Str`); short tag strings that are only compared for equality
(job statuses, transfer modes, codec names) are kept as Lean `String`.
Python floats used for scoring and durations are modelled as exact rationals.
Nullable database columns are `Option` fields, and Python truthiness of
`x or d` is modelled explicitly (`none`, `0`, `""` and `[]` are falsy).
External effects (subprocesses, SSH commands, the filesystem) appear as
explicit oracle parameters describing their outcomes.
-/

/-- Characters of a Python string. -/
abbrev Str := List Char

/-- Truthiness of an optional string-like value, as in Python `x or y`:
`None` and the empty string are falsy. -/
def truthyStr (s : Option Str) : Bool :=
  match s with
  | none => false
  | some v => !v.isEmpty

/-- Python `a or b` for optional strings: returns `a`'s value when truthy,
otherwise `b`. -/
def pyOrStr (a : Option Str) (b : Str) : Str :=
  match a with
  | some v => if v.isEmpty then b else v
  | none => b

/-- Python `a or b` for optional naturals: `None` and `0` are falsy. -/
def pyOrNat (a : Option Nat) (d : Nat) : Nat :=
  match a with
  | none => d
  | some n => if n = 0 then d else n

/-- One entry of a worker's `path_mappings` JSON list
(`{"source_prefix": ..., "target_prefix": ...}`). -/
structure PathMapping where
  sourcePrefix : Str
  targetPrefix : Str
deriving DecidableEq, Repr

/-- Test from `resolve_path`'s loop: `if source and plex_path.startswith(source)`.
Python truthiness of the source means an empty source prefix never matches. -/
def mappingMatches (plexPath : Str) (m : PathMapping) : Bool :=
  !m.sourcePrefix.isEmpty && m.sourcePrefix.isPrefixOf plexPath

/-- Rewrite applied by a matching mapping:
`target + plex_path[len(source):]`. -/
def rewriteBy (plexPath : Str) (m : PathMapping) : Str :=
  m.targetPrefix ++ plexPath.drop m.sourcePrefix.length

/-- Stable insertion into a list kept in descending source-prefix-length
order: the new element goes before the first entry whose length does not
exceed its own, so earlier-listed mappings stay first among equal lengths. -/
def insertByLen (m : PathMapping) : List PathMapping → List PathMapping
  | [] => [m]
  | x :: xs =>
      if x.sourcePrefix.length ≤ m.sourcePrefix.length then m :: x :: xs
      else x :: insertByLen m xs

/-- Stable sort of the mapping table by source-prefix length descending,
modelling `sorted(path_mappings, key=..., reverse=True)`; CPython's sort is
stable, and this insertion sort realises the same (unique) stable result. -/
def sortMappings (ms : List PathMapping) : List PathMapping :=
  ms.foldr insertByLen []

/-- Embeds `resolve_path(plex_path, path_mappings)`: longest-prefix-first
substitution, `None` when the table is empty or nothing matches. -/
def resolve_path (plexPath : Str) (pathMappings : List PathMapping) : Option Str :=
  if pathMappings.isEmpty then none
  else ((sortMappings pathMappings).find? (mappingMatches plexPath)).map (rewriteBy plexPath)

/-- Branch of `determine_transfer_mode` taken when no mapping applies. -/
def determineNoMapping (plexPath : Str) (workerIsLocal plexServerHasSSH : Bool) :
    String × Option Str :=
  if workerIsLocal then
    if plexServerHasSSH then ("ssh_pull", none)
    else ("local", some plexPath)
  else ("ssh_transfer", none)

/-- Embeds `determine_transfer_mode(plex_path, worker_is_local, path_mappings,
plex_server_has_ssh)`. The Python code tests `if resolved:`, so a resolved
path that is the empty string falls through to the unmapped branches. -/
def determine_transfer_mode (plexPath : Str) (workerIsLocal : Bool)
    (pathMappings : List PathMapping) (plexServerHasSSH : Bool) :
    String × Option Str :=
  match resolve_path plexPath pathMappings with
  | some resolved =>
      if resolved.isEmpty then determineNoMapping plexPath workerIsLocal plexServerHasSSH
      else ("mapped", some resolved)
  | none => determineNoMapping plexPath workerIsLocal plexServerHasSSH

/-!
### Worker scoring and assignment
Embeds `TranscodeService._assign_worker` from
`app/services/transcode_service.py`.
-/

/-- Worker row fields consulted by `_assign_worker`
(`app/models/worker_server.py`). -/
structure WorkerServer where
  id : Nat
  is_local : Bool
  is_enabled : Bool
  status : String
  max_concurrent_jobs : Nat
  performance_score : Option ℚ
  path_mappings : Option (List PathMapping)
deriving DecidableEq, Repr

/-- Job row fields consulted by the active-job count query. -/
structure JobRow where
  worker_server_id : Option Nat
  status : String
deriving DecidableEq, Repr

/-- Statuses counted as active by `_assign_worker`'s per-worker count query:
`TranscodeJob.status.in_(["transcoding", "verifying", "replacing"])`. -/
def schedulingActiveStatuses : List String := ["transcoding", "verifying", "replacing"]

/-- Per-worker active-job count used for capacity and load cost. -/
def activeCount (jobs : List JobRow) (wid : Nat) : Nat :=
  (jobs.filter (fun j => j.worker_server_id == some wid &&
    schedulingActiveStatuses.contains j.status)).length

/-- The `TRANSFER_COST` table with its `.get(mode, 100)` default. -/
def TRANSFER_COST (mode : String) : ℚ :=
  if mode == "local" then 0
  else if mode == "mapped" then 25
  else if mode == "ssh_pull" then 50
  else if mode == "ssh_transfer" then 75
  else 100

/-- Performance cost `100 - (performance_score if not None else 50)`. -/
def perfCost (w : WorkerServer) : ℚ :=
  100 - w.performance_score.getD 50

/-- Load cost `(active_counts[w.id] / max(w.max_concurrent_jobs, 1)) * 100`. -/
def loadCost (w : WorkerServer) (active : Nat) : ℚ :=
  ((active : ℚ) / (max w.max_concurrent_jobs 1 : Nat)) * 100

/-- Embeds `compute_score(w, mode, include_capacity_check)`: `None` when the
capacity gate applies, otherwise the weighted composite
`transfer_cost * 0.35 + perf_cost * 0.30 + load_cost * 0.35`
(floats modelled as exact rationals). -/
def compute_score (w : WorkerServer) (mode : String) (active : Nat)
    (includeCapacityCheck : Bool) : Option ℚ :=
  if includeCapacityCheck && decide (active ≥ w.max_concurrent_jobs) then none
  else some (TRANSFER_COST mode * (35 / 100) + perfCost w * (30 / 100) +
    loadCost w active * (35 / 100))

/-- Workers returned by the `is_enabled == True, status == "online"` query. -/
def onlineWorkers (ws : List WorkerServer) : List WorkerServer :=
  ws.filter (fun w => w.is_enabled && w.status == "online")

/-- One entry of `_assign_worker`'s `candidates` list:
`(score, w.id, mode, resolved)`. -/
structure Candidate where
  score : ℚ
  workerId : Nat
  mode : String
  resolved : Option Str
deriving DecidableEq, Repr

/-- Candidate built for one worker: resolves the transfer mode (with
`w.path_mappings or []`) and scores it. -/
def candidateFor (plexPath : Str) (plexServerHasSSH : Bool) (jobs : List JobRow)
    (gate : Bool) (w : WorkerServer) : Option Candidate :=
  let mr := determine_transfer_mode plexPath w.is_local (w.path_mappings.getD [])
    plexServerHasSSH
  (compute_score w mr.1 (activeCount jobs w.id) gate).map
    (fun s => ⟨s, w.id, mr.1, mr.2⟩)

/-- First element of minimal score, which is what `candidates.sort(key=score)`
followed by `candidates[0]` produces (Python's sort is stable). -/
def pickFirstMin (c : Candidate) (cs : List Candidate) : Candidate :=
  cs.foldl (fun best x => if x.score < best.score then x else best) c

/-- Embeds `_assign_worker(plex_path, plex_server_has_ssh, preferred_worker_id)`.
Returns `(worker_server_id, transfer_mode, worker_input_path)`. Worker ids are
positive in the database, so `if preferred_worker_id:` is modelled by the
option being `some`. -/
def assign_worker (ws : List WorkerServer) (jobs : List JobRow) (plexPath : Str)
    (plexServerHasSSH : Bool) (preferred : Option Nat) :
    Option Nat × String × Option Str :=
  match preferred.bind (fun pid => (onlineWorkers ws).find? (fun w => w.id == pid)) with
  | some w =>
      let mr := determine_transfer_mode plexPath w.is_local (w.path_mappings.getD [])
        plexServerHasSSH
      (some w.id, mr.1, mr.2)
  | none =>
      let workers := onlineWorkers ws
      if workers.isEmpty then (none, "local", some plexPath)
      else
        let firstPass := workers.filterMap (candidateFor plexPath plexServerHasSSH jobs true)
        let candidates :=
          if firstPass.isEmpty then
            workers.filterMap (candidateFor plexPath plexServerHasSSH jobs false)
          else firstPass
        match candidates with
        | [] => (none, "local", some plexPath)
        | c :: cs =>
            let best := pickFirstMin c cs
            (some best.workerId, best.mode, best.resolved)

/-!
### Job rows and the retry policy
Embeds `TranscodeWorker._handle_failure` and `_recover_orphaned_jobs` from
`app/workers/transcode_worker.py`. Timestamps are abstract minutes, so
`datetime.utcnow() + timedelta(minutes=b)` becomes `now + b`.
-/

/-- Fields of a `transcode_jobs` row that the worker code reads or writes.
Caution: `app/models/transcode_job.py` maps only some of these as ORM
columns. `retry_count`, `max_retries`, `validation_status`, `status_detail`
and `source_prestaged` have no mapped attribute (the migrations add
`status_detail`/`source_prestaged` to the table only), so at runtime an ORM
*read* of them raises `AttributeError` and a write is a transient instance
attribute that is never persisted. `mappedTranscodeJobColumns` below records
the actually mapped attributes, and the `handle_failure_runtime` /
`recover_orphaned_jobs_runtime` models use it to capture the real
behaviour; the functions-as-written models (`handle_failure`,
`recover_orphaned_job`) describe the code the worker file contains. -/
structure TranscodeJob where
  media_item_id : Option Nat
  status : String
  status_detail : Option String
  progress_percent : ℚ
  current_fps : Option ℚ
  eta_seconds : Option Nat
  checkpoint_frame : Option Nat
  source_path : Str
  output_path : Option Str
  output_size : Option Nat
  worker_server_id : Option Nat
  transfer_mode : Option String
  worker_input_path : Option Str
  worker_output_path : Option Str
  retry_count : Option Nat
  max_retries : Option Nat
  scheduled_after : Option Nat
  source_prestaged : Bool
  validation_status : Option String
  ffmpeg_args : List Str
deriving DecidableEq, Repr

/-- Backoff table lookup `[1, 5, 15][min(retry_count - 1, 2)]` (minutes). -/
def backoffMinutes (k : Nat) : Nat :=
  List.getD [1, 5, 15] (min (k - 1) 2) 0

/-- Result of `_handle_failure`: the updated row plus whether a retry was
scheduled (the `job.retry_scheduled` broadcast). -/
structure FailureResult where
  job : TranscodeJob
  retryScheduled : Bool
deriving DecidableEq, Repr

/-- Embeds `_handle_failure(job, log_lines, session)`: mark failed, then
auto-retry while `(job.retry_count or 0) < (job.max_retries or 3)`.
The retry branch increments the count, re-queues with a backoff, resets the
progress telemetry and clears the assigned worker. -/
def handle_failure (now : Nat) (job : TranscodeJob) : FailureResult :=
  let j := { job with status := "failed" }
  let rc := pyOrNat job.retry_count 0
  let mr := pyOrNat job.max_retries 3
  if rc < mr then
    let rc' := rc + 1
    { job := { j with
        status := "queued"
        retry_count := some rc'
        scheduled_after := some (now + backoffMinutes rc')
        progress_percent := 0
        current_fps := none
        eta_seconds := none
        worker_server_id := none }
      retryScheduled := true }
  else
    { job := j, retryScheduled := false }

/-- Statuses treated as orphaned by `_recover_orphaned_jobs`'s query. -/
def orphanStatuses : List String := ["transcoding", "transferring", "verifying", "replacing"]

/-- Embeds the per-job effect of `_recover_orphaned_jobs`: an orphaned job is
re-queued with cleared progress telemetry and cleared prestaging flag; a
queued job with a stale prestaged flag just loses the flag. -/
def recover_orphaned_job (job : TranscodeJob) : TranscodeJob :=
  if orphanStatuses.contains job.status then
    { job with
        status := "queued"
        status_detail := none
        progress_percent := 0
        current_fps := none
        eta_seconds := none
        source_prestaged := false }
  else if job.status == "queued" && job.source_prestaged then
    { job with source_prestaged := false }
  else job

/-!
### Path splitting helpers
Model of `os.path.splitext`, `os.path.dirname` and `os.path.basename`
(POSIX flavour), used by the replacement logic.
-/

/-- Index after the last `/` of a path (0 when there is none). -/
def baseStart (p : Str) : Nat :=
  (p.foldl (fun acc c => (acc.1 + 1, if c = '/' then acc.1 + 1 else acc.2)) (0, 0)).2

/-- Position of the extension separator, following CPython's `splitext`:
the last `.` after the last `/`, unless the basename consists only of
leading dots up to that position. -/
def splitextPos (p : Str) : Option Nat :=
  let dots := (List.range p.length).filter
    (fun i => baseStart p ≤ i && p.getD i ' ' = '.')
  match dots.getLast? with
  | none => none
  | some d =>
      if (List.range d).all (fun i => i < baseStart p || p.getD i ' ' = '.') then none
      else some d

/-- Root part of `os.path.splitext(p)`. -/
def splitextRoot (p : Str) : Str :=
  match splitextPos p with
  | none => p
  | some d => p.take d

/-- Extension part of `os.path.splitext(p)` (includes the dot). -/
def splitextExt (p : Str) : Str :=
  match splitextPos p with
  | none => []
  | some d => p.drop d

/-- Model of `os.path.dirname` (POSIX). -/
def dirname (p : Str) : Str :=
  if baseStart p = 0 then [] else p.take (baseStart p - 1)

/-- Model of `os.path.basename` (POSIX). -/
def basename (p : Str) : Str :=
  p.drop (baseStart p)

/-!
### Output validation, in-place replacement and the success path
Embeds `_validate_output`, `_replace_original` and `_handle_success` from
`app/workers/transcode_worker.py`. The local filesystem is modelled as the
list of currently existing paths, and the outcome of each `os` call that can
throw is an oracle parameter (`failAt` names the first step whose call
raises, mirroring the single `try/except` around the three steps).
-/

/-- Result of `probe_file` (`app/utils/ffprobe.py`): duration in seconds,
size in bytes, and the detected video codec if any. -/
structure ProbeInfo where
  duration : ℚ
  size : Nat
  video_codec : Option String
deriving DecidableEq, Repr

/-- Embeds `_validate_output(job, output_path, output_info, source_duration)`:
four checks, each marking `validation_status = "failed"` and returning
`False`; otherwise `validation_status = "passed"`. The duration check runs
only when `source_duration` is truthy and positive and the output duration is
positive, and fails when the absolute difference exceeds 2.0 seconds. -/
def validate_output (job : TranscodeJob) (outputInfo : Option ProbeInfo)
    (sourceDuration : Option ℚ) : TranscodeJob × Bool :=
  match outputInfo with
  | none =>
      ({ job with validation_status := some "failed"
                  status_detail := some "Validation failed: output file could not be probed" },
       false)
  | some info =>
      if info.video_codec = none then
        ({ job with validation_status := some "failed"
                    status_detail := some "Validation failed: no video stream in output" },
         false)
      else if info.size < 1048576 then
        ({ job with validation_status := some "failed"
                    status_detail := some "Validation failed: output too small" },
         false)
      else
        match sourceDuration with
        | some sd =>
            if sd ≠ 0 ∧ sd > 0 ∧ info.duration > 0 ∧ |info.duration - sd| > 2 then
              ({ job with validation_status := some "failed"
                          status_detail := some "Validation failed: duration mismatch" },
               false)
            else ({ job with validation_status := some "passed" }, true)
        | none => ({ job with validation_status := some "passed" }, true)

/-- Existence test on the modelled filesystem (`os.path.exists`). -/
def pathExists (fs : List Str) (p : Str) : Bool := fs.contains p

/-- Effect of a successful `os.rename(src, dst)` on the modelled filesystem. -/
def renameFs (fs : List Str) (src dst : Str) : List Str :=
  dst :: (fs.erase src)

/-- Outcome record for `_replace_original`. `failedStep` is `none` when all
three steps succeeded, otherwise the index (0 = backup rename, 1 = move into
place, 2 = backup removal) of the step whose `os` call raised. -/
structure ReplaceOutcome where
  job : TranscodeJob
  fs : List Str
  replaced : Bool
  backupDeleted : Bool
  restoreAttempted : Bool
  failedStep : Option (Fin 3)
deriving DecidableEq, Repr

/-- The `except` branch of `_replace_original`: restore the backup only when
it exists and the original's path is vacant. -/
def replaceRescue (job : TranscodeJob) (fs : List Str) (originalPath backupPath : Str)
    (restoreOk : Bool) (step : Fin 3) : ReplaceOutcome :=
  let attempt := pathExists fs backupPath && !pathExists fs originalPath
  let fs' := if attempt && restoreOk then renameFs fs backupPath originalPath else fs
  { job := job, fs := fs', replaced := false, backupDeleted := false
    restoreAttempted := attempt, failedStep := some step }

/-- Embeds `_replace_original(job, media, output_path)`: rename the original
to `<original>.original`, move the output to the original's location
(adjusting the extension if the container changed), then delete the backup;
on an exception, attempt to restore the backup. Exceptions never propagate
out of this function. -/
def replace_original (job : TranscodeJob) (outputPath : Str) (fs : List Str)
    (failAt : Option (Fin 3)) (restoreOk : Bool) : ReplaceOutcome :=
  if !pathExists fs outputPath then
    { job := job, fs := fs, replaced := false, backupDeleted := false
      restoreAttempted := false, failedStep := none }
  else
    let originalPath := pyOrStr job.worker_input_path job.source_path
    if !pathExists fs originalPath then
      { job := job, fs := fs, replaced := false, backupDeleted := false
        restoreAttempted := false, failedStep := none }
    else
      let j := { job with status := "replacing" }
      let backupPath := originalPath ++ (".original").data
      let finalPath :=
        if splitextExt originalPath ≠ splitextExt outputPath then
          splitextRoot originalPath ++ splitextExt outputPath
        else originalPath
      if failAt = some 0 then
        replaceRescue j fs originalPath backupPath restoreOk 0
      else
        let fs1 := renameFs fs originalPath backupPath
        if failAt = some 1 then
          replaceRescue j fs1 originalPath backupPath restoreOk 1
        else
          let fs2 := renameFs fs1 outputPath finalPath
          if failAt = some 2 then
            replaceRescue j fs2 originalPath backupPath restoreOk 2
          else
            let fs3 := fs2.erase backupPath
            { job := { j with output_path := some finalPath }
              fs := fs3, replaced := true, backupDeleted := true
              restoreAttempted := false, failedStep := none }

/-- Source duration computed by `_handle_success`:
`(media.duration_ms / 1000) if media and media.duration_ms else None`. -/
def sourceDurationOf (mediaDurationMs : Option (Option ℚ)) : Option ℚ :=
  match mediaDurationMs with
  | some (some d) => if d = 0 then none else some (d / 1000)
  | _ => none

/-- Outcome record for `_handle_success`. -/
structure SuccessOutcome where
  job : TranscodeJob
  wentToFailureHandler : Bool
  replaceOutcome : Option ReplaceOutcome
  completed : Bool
deriving DecidableEq, Repr

/-- Probe path chosen by `_handle_success`: `job.output_path`, falling back
to the last token of the ffmpeg command when the former is falsy. -/
def probePathOf (job : TranscodeJob) : Option Str :=
  match job.output_path with
  | some p => if p.isEmpty then job.ffmpeg_args.getLast? else some p
  | none => job.ffmpeg_args.getLast?

/-- Embeds `_handle_success(job, media, log_lines, start_time, session)`:
verify (probe) the output, validate it, and for catalog jobs replace the
original in place, then mark the job completed. A missing probe result is an
immediate terminal failure; a validation failure is routed through
`_handle_failure`; a replacement failure is swallowed by `_replace_original`,
so the job completes regardless of it.
`mediaDurationMs` is `none` when the job has no media item, `some d` for the
item's `duration_ms` column. -/
def handle_success (now : Nat) (job : TranscodeJob)
    (mediaDurationMs : Option (Option ℚ)) (probe : Str → Option ProbeInfo)
    (fs : List Str) (failAt : Option (Fin 3)) (restoreOk : Bool) : SuccessOutcome :=
  let j0 := { job with status := "verifying" }
  let probePath := probePathOf j0
  let outputInfo := match probePath with
    | some p => probe p
    | none => none
  match outputInfo with
  | none =>
      { job := { j0 with status := "failed", validation_status := some "failed" }
        wentToFailureHandler := false, replaceOutcome := none, completed := false }
  | some info =>
      let j1 := { j0 with output_size := some info.size }
      let sd := sourceDurationOf mediaDurationMs
      let vr := validate_output j1 (some info) sd
      if !vr.2 then
        { job := (handle_failure now vr.1).job
          wentToFailureHandler := true, replaceOutcome := none, completed := false }
      else
        let j2 := vr.1
        match j2.media_item_id with
        | some _ =>
            let ro := replace_original j2 (probePath.getD []) fs failAt restoreOk
            { job := { ro.job with status := "completed", progress_percent := 100 }
              wentToFailureHandler := false, replaceOutcome := some ro, completed := true }
        | none =>
            { job := { j2 with status := "completed", progress_percent := 100 }
              wentToFailureHandler := false, replaceOutcome := none, completed := true }

/-!
### Post-encode path of ssh_pull execution
Embeds the tail of `_execute_ssh_pull` (after the local ffmpeg run) from
`app/workers/transcode_worker.py`: upload the output back to the NAS,
replace the original over SSH for catalog jobs, and mark the job completed
based solely on the ffmpeg exit code — the remote output is never probed, so
no duration validation happens on this path.
-/

/-- Outcome record for the tail of `_execute_ssh_pull`. -/
structure SshPullOutcome where
  job : TranscodeJob
  replacedOnNas : Bool
  restoreAttemptedOnNas : Bool
deriving DecidableEq, Repr

/-- Embeds `_execute_ssh_pull` from the ffmpeg exit check onwards.
`exitCode` is the local ffmpeg return code, `uploadOk` the result of
`ssh.upload_file`, and `replaceOk` whether the `mv && mv && rm -f` command
chain on the NAS exited 0. -/
def execute_ssh_pull_post (now : Nat) (job : TranscodeJob) (localOutput : Str)
    (exitCode : Int) (uploadOk replaceOk : Bool) : SshPullOutcome :=
  if exitCode ≠ 0 then
    { job := (handle_failure now job).job, replacedOnNas := false
      restoreAttemptedOnNas := false }
  else
    let remoteSource := job.source_path
    let remoteOutput := dirname remoteSource ++ ("/").data ++ basename localOutput
    if !uploadOk then
      { job := { job with status := "failed" }, replacedOnNas := false
        restoreAttemptedOnNas := false }
    else
      match job.media_item_id with
      | some _ =>
          let finalRemote :=
            if splitextExt remoteSource ≠ splitextExt remoteOutput then
              splitextRoot remoteSource ++ splitextExt remoteOutput
            else remoteSource
          { job := { job with
              status := "completed"
              status_detail := none
              progress_percent := 100
              output_path := some finalRemote }
            replacedOnNas := replaceOk
            restoreAttemptedOnNas := !replaceOk }
      | none =>
          { job := { job with
              status := "completed"
              status_detail := none
              progress_percent := 100
              output_path := some remoteOutput }
            replacedOnNas := false
            restoreAttemptedOnNas := false }

/-!
### Hardware-encoder fallback
Embeds `NVENC_CPU_FALLBACK`, `NVENC_ERROR_PATTERNS`, `_is_nvenc_failure` and
the two-tier fallback section of `_execute_remote_transfer` from
`app/workers/transcode_worker.py`. Each remote ffmpeg invocation's outcome is
supplied by the oracle `runs : Nat → RunResult` (the n-th invocation made).
-/

/-- Transfer tiers, in the order the ladder can attempt them. -/
inductive Tier where
  | parallel
  | rsync
  | sftp
  | chunked
deriving DecidableEq, Repr

/-- Outcome of the `sftp.put` call: success, an `OSError` with an errno, or
any other exception. -/
inductive SftpResult where
  | ok
  | oserror (errno : Nat)
  | failure
deriving DecidableEq, Repr

/-- Oracles for one `upload_file`/`download_file` call. -/
structure TransferOracles where
  parallelOk : Bool
  rsyncOk : Bool
  sftpPut : SftpResult
  chunkedOk : Bool
  sftpGetOk : Bool
deriving DecidableEq, Repr

/-- The SFTP tier of `upload_file`: `sftp.put`, with the chunked manual-copy
fallback taken exactly on `OSError` with `errno == 45`; other exceptions
propagate to the enclosing handler, which returns `False`. -/
def sftpUploadTier (o : TransferOracles) (attempted : List Tier) : Bool × List Tier :=
  match o.sftpPut with
  | .ok => (true, attempted ++ [Tier.sftp])
  | .oserror n =>
      if n = 45 then (o.chunkedOk, attempted ++ [Tier.sftp, Tier.chunked])
      else (false, attempted ++ [Tier.sftp])
  | .failure => (false, attempted ++ [Tier.sftp])

/-- Embeds `upload_file(local_path, remote_path)`: the parallel and rsync
tiers run only under `if self.key_path and not self.password`, the parallel
tier additionally only for files of at least 100 MB; SFTP is the final tier.
Returns `(returned value, tiers attempted in order)`. -/
def upload_file (keyPath password : Option Str) (fileSize : Nat)
    (o : TransferOracles) : Bool × List Tier :=
  if truthyStr keyPath && !truthyStr password then
    if fileSize ≥ 100 * 1024 * 1024 then
      if o.parallelOk then (true, [Tier.parallel])
      else if o.rsyncOk then (true, [Tier.parallel, Tier.rsync])
      else sftpUploadTier o [Tier.parallel, Tier.rsync]
    else
      if o.rsyncOk then (true, [Tier.rsync])
      else sftpUploadTier o [Tier.rsync]
  else
    sftpUploadTier o []

/-- Embeds `download_file(remote_path, local_path, total_size)`: same ladder
gating as `upload_file` (using the caller-supplied `total_size`), but the
SFTP tier has no chunked fallback. -/
def download_file (keyPath password : Option Str) (totalSize : Nat)
    (o : TransferOracles) : Bool × List Tier :=
  if truthyStr keyPath && !truthyStr password then
    if totalSize ≥ 100 * 1024 * 1024 then
      if o.parallelOk then (true, [Tier.parallel])
      else if o.rsyncOk then (true, [Tier.parallel, Tier.rsync])
      else (o.sftpGetOk, [Tier.parallel, Tier.rsync, Tier.sftp])
    else
      if o.rsyncOk then (true, [Tier.rsync])
      else (o.sftpGetOk, [Tier.rsync, Tier.sftp])
  else
    (o.sftpGetOk, [Tier.sftp])

/-- One mebibyte, the `MB` constant of `_parallel_ssh_upload`. -/
def MB : Nat := 1048576

/-- Segment block counts of stream `idx`:
`segment_mb` blocks for streams 0..2, and for the last stream the ceiling of
the remaining bytes (`(remaining + MB - 1) // MB`). -/
def segCountMB (total segMB numStreams idx : Nat) : Nat :=
  if idx = numStreams - 1 then (total - idx * segMB * MB + MB - 1) / MB
  else segMB

/-- Bytes actually moved by stream `idx`'s `dd` pipe: it reads at most
`count` blocks but stops at the end of the local file, and writes them at
byte offset `skip * MB` with `conv=notrunc`. -/
def segWriteLen (total segMB numStreams idx : Nat) : Nat :=
  min (segCountMB total segMB numStreams idx * MB) (total - idx * segMB * MB)

/-- Modelled destination file: its apparent size and the byte ranges
(offset, length) written so far. -/
structure DstFile where
  size : Nat
  written : List (Nat × Nat)
deriving DecidableEq, Repr

/-- Size of the remote file after a set of `dd seek=... conv=notrunc`
writes into a file pre-allocated to `total` bytes: writes past the current
end extend the file. -/
def dstSizeAfter (total : Nat) (writes : List (Nat × Nat)) : Nat :=
  writes.foldl (fun s w => max s (w.1 + w.2)) total

/-- Byte `i` of the destination has been written. -/
def coveredBy (writes : List (Nat × Nat)) (i : Nat) : Prop :=
  ∃ w ∈ writes, w.1 ≤ i ∧ i < w.1 + w.2

/-- Embeds `_parallel_ssh_upload(local_path, remote_path, total_size,
num_streams=4)`: bail out for files below four whole megabytes, pre-allocate
the remote file with `truncate -s total_size`, run the four `dd` streams
concurrently (`segOk i` tells whether stream `i`'s pipeline exited 0), then
verify the remote size when every stream succeeded. The remote `stat` is
modelled as reporting the modelled destination size. -/
def parallel_ssh_upload (total : Nat) (preOk : Bool) (segOk : Nat → Bool) :
    Bool × DstFile :=
  let numStreams := 4
  let totalMB := total / MB
  let segMB := totalMB / numStreams
  if segMB < 1 then (false, { size := 0, written := [] })
  else if !preOk then (false, { size := 0, written := [] })
  else
    let idxs := List.range numStreams
    let writes := idxs.filterMap (fun i =>
      if segOk i then some (i * segMB * MB, segWriteLen total segMB numStreams i)
      else none)
    let dst : DstFile := { size := dstSizeAfter total writes, written := writes }
    if idxs.all segOk then
      if dst.size ≠ total then (false, dst) else (true, dst)
    else (false, dst)

/-!
### Derived and spec-side definitions, and concrete sample data
-/

/-- Ungated composite score of a worker, i.e. the value `compute_score`
yields with `include_capacity_check=False` (which never returns `None`). -/
def ungatedScore (plexPath : Str) (plexServerHasSSH : Bool) (jobs : List JobRow)
    (w : WorkerServer) : ℚ :=
  (compute_score w
    (determine_transfer_mode plexPath w.is_local (w.path_mappings.getD []) plexServerHasSSH).1
    (activeCount jobs w.id) false).getD 0

/-- Spec-side definition, for comparison with `schedulingActiveStatuses`:
the spec claims `activeJobs` counts jobs in
{transcoding, verifying, replacing, transferring}. -/
def specActiveStatuses : List String :=
  ["transcoding", "verifying", "replacing", "transferring"]

/-- Spec-side definition of the active-job count, using the status set the
spec claims. -/
def specActiveCount (jobs : List JobRow) (wid : Nat) : Nat :=
  (jobs.filter (fun j => j.worker_server_id == some wid &&
    specActiveStatuses.contains j.status)).length

/-- Sample job row used by concrete witnesses and counterexamples: a catalog
job mid-flight on worker 7 with live telemetry and worker-resolved paths. -/
def sampleJob : TranscodeJob where
  media_item_id := some 1
  status := "transcoding"
  status_detail := some "Transcoding locally..."
  progress_percent := 37
  current_fps := some 24
  eta_seconds := some 120
  checkpoint_frame := some 42
  source_path := ("/nas/movie.mkv").data
  output_path := some ("/tmp/movie.mediaflow.mkv").data
  output_size := none
  worker_server_id := some 7
  transfer_mode := some "ssh_pull"
  worker_input_path := some ("/w/in.mkv").data
  worker_output_path := some ("/w/out.mkv").data
  retry_count := none
  max_retries := none
  scheduled_after := none
  source_prestaged := true
  validation_status := none
  ffmpeg_args := []

/-- Two enabled online workers, both with a single job slot. -/
def busyWorker1 : WorkerServer where
  id := 1
  is_local := false
  is_enabled := true
  status := "online"
  max_concurrent_jobs := 1
  performance_score := some 80
  path_mappings := none

/-- Second sample worker (unbenchmarked). -/
def busyWorker2 : WorkerServer where
  id := 2
  is_local := false
  is_enabled := true
  status := "online"
  max_concurrent_jobs := 1
  performance_score := none
  path_mappings := none

/-- Job rows putting both sample workers at capacity. -/
def busyJobs : List JobRow :=
  [{ worker_server_id := some 1, status := "transcoding" },
   { worker_server_id := some 2, status := "verifying" }]

/-- Probe oracle reporting a healthy output for any path: decodable video
stream and a size at the 1 MB floor. -/
def probeGood : Str → Option ProbeInfo :=
  fun _ => some { duration := 0, size := 1048576, video_codec := some "hevc" }

/-- Catalog job whose transcode output sits next to the original. -/
def jobC7 : TranscodeJob :=
  { sampleJob with
      output_path := some ("/m/v.mediaflow.mkv").data
      worker_input_path := some ("/m/v.mkv").data }

/-- Filesystem for the replacement scenario: output and original exist. -/
def fsC7 : List Str := [("/m/v.mediaflow.mkv").data, ("/m/v.mkv").data]

/-!
### Runtime ORM semantics
The attributes actually mapped on the `TranscodeJob` ORM class
(`app/models/transcode_job.py`: columns plus relationships). SQLAlchemy
raises `AttributeError` when code reads a class or instance attribute that
is not mapped and was never assigned, which is what happens to the worker's
retry and recovery code.
-/

/-- Attributes mapped on the `TranscodeJob` declarative class. -/
def mappedTranscodeJobColumns : List String :=
  ["id", "media_item_id", "preset_id", "worker_server_id", "config_json",
   "status", "priority", "progress_percent", "current_fps", "eta_seconds",
   "source_path", "source_size", "output_path", "output_size",
   "transfer_mode", "worker_input_path", "worker_output_path",
   "ffmpeg_command", "ffmpeg_log", "checkpoint_frame", "scheduled_after",
   "is_dry_run", "created_at", "updated_at", "started_at", "completed_at",
   "media_item", "worker_server", "job_logs"]

/-- Whether an ORM attribute read on a freshly loaded `TranscodeJob`
succeeds. -/
def ormReadOk (attr : String) : Bool :=
  mappedTranscodeJobColumns.contains attr

/-- Result of one real `_handle_failure` invocation: the durable row state,
the exception it raises (if any), and whether a retry was scheduled. -/
structure FailureRunResult where
  job : TranscodeJob
  raised : Option String
  retryScheduled : Bool
deriving DecidableEq, Repr

/-- Runtime model of `_handle_failure` (transcode_worker.py:1727-1759): the
`status = "failed"` write is committed first (lines 1728-1730); the retry
check at line 1743 then reads `job.retry_count`, which is not a mapped
attribute and is never assigned beforehand on any instance, so the read
raises `AttributeError` and the retry branch never executes. Were the
columns mapped, the function-as-written (`handle_failure`) would run. -/
def handle_failure_runtime (now : Nat) (job : TranscodeJob) : FailureRunResult :=
  if ormReadOk "retry_count" then
    let r := handle_failure now job
    { job := r.job, raised := none, retryScheduled := r.retryScheduled }
  else
    { job := { job with status := "failed" }
      raised := some "AttributeError: retry_count"
      retryScheduled := false }

/-- Result of one real `_recover_orphaned_jobs` run over the job table. -/
structure RecoveryRunResult where
  durable : List TranscodeJob
  raised : Option String
deriving DecidableEq, Repr

/-- Runtime model of `_recover_orphaned_jobs` (transcode_worker.py:78-111):
the first query and loop only mutate in-memory instances; building the
second query's filter `TranscodeJob.source_prestaged == True` at line 100
reads the unmapped class attribute and raises `AttributeError` before the
commit at line 108, so the session closes without committing and every row
keeps its pre-startup state. Were the attribute mapped, both loops and the
commit would run (`recover_orphaned_job` per row). -/
def recover_orphaned_jobs_runtime (jobs : List TranscodeJob) : RecoveryRunResult :=
  if ormReadOk "source_prestaged" then
    { durable := jobs.map recover_orphaned_job, raised := none }
  else
    { durable := jobs, raised := some "AttributeError: source_prestaged" }

/-!
## Helper lemmas
-/

theorem insertByLen_perm (m : PathMapping) (l : List PathMapping) :
    (insertByLen m l).Perm (m :: l) := by
  induction l with
  | nil => exact List.Perm.refl _
  | cons x xs ih =>
      unfold insertByLen
      split
      · exact List.Perm.refl _
      · exact (ih.cons x).trans (List.Perm.swap m x xs)

theorem sortMappings_perm (ms : List PathMapping) : (sortMappings ms).Perm ms := by
  induction ms with
  | nil => exact List.Perm.refl _
  | cons x xs ih =>
      exact (insertByLen_perm x (sortMappings xs)).trans (ih.cons x)

theorem insertByLen_pairwise {m : PathMapping} {l : List PathMapping}
    (h : l.Pairwise (fun a b => b.sourcePrefix.length ≤ a.sourcePrefix.length)) :
    (insertByLen m l).Pairwise
      (fun a b => b.sourcePrefix.length ≤ a.sourcePrefix.length) := by
  induction l with
  | nil => simp [insertByLen]
  | cons x xs ih =>
      rcases List.pairwise_cons.mp h with ⟨hx, hxs⟩
      unfold insertByLen
      split
      · rename_i hle
        refine List.pairwise_cons.mpr ⟨?_, h⟩
        intro y hy
        rcases List.mem_cons.mp hy with rfl | hy'
        · exact hle
        · exact le_trans (hx y hy') hle
      · rename_i hgt
        refine List.pairwise_cons.mpr ⟨?_, ih hxs⟩
        intro y hy
        have hy' := (insertByLen_perm m xs).mem_iff.mp hy
        rcases List.mem_cons.mp hy' with rfl | hy''
        · exact le_of_lt (lt_of_not_le hgt)
        · exact hx y hy''

theorem sortMappings_pairwise (ms : List PathMapping) :
    (sortMappings ms).Pairwise
      (fun a b => b.sourcePrefix.length ≤ a.sourcePrefix.length) := by
  induction ms with
  | nil => simp [sortMappings]
  | cons x xs ih => exact insertByLen_pairwise ih

theorem find?_len_max {l : List PathMapping} {p : PathMapping → Bool} {x : PathMapping}
    (hs : l.Pairwise (fun a b => b.sourcePrefix.length ≤ a.sourcePrefix.length))
    (hf : l.find? p = some x) :
    ∀ y ∈ l, p y = true → y.sourcePrefix.length ≤ x.sourcePrefix.length := by
  induction l with
  | nil => simp at hf
  | cons a as ih =>
      rcases List.pairwise_cons.mp hs with ⟨ha, has⟩
      intro y hy hpy
      cases hpa : p a with
      | true =>
          rw [List.find?_cons_of_pos _ hpa] at hf
          cases hf
          rcases List.mem_cons.mp hy with rfl | hy'
          · exact le_refl _
          · exact ha y hy'
      | false =>
          rw [List.find?_cons_of_neg _ (by simp [hpa])] at hf
          rcases List.mem_cons.mp hy with rfl | hy'
          · rw [hpa] at hpy; exact absurd hpy (by simp)
          · exact ih has hf y hy' hpy

theorem resolve_path_of_match {p : Str} {ms : List PathMapping}
    (h : ∃ m ∈ ms, mappingMatches p m = true) :
    ∃ m ∈ ms, mappingMatches p m = true ∧
      (∀ m' ∈ ms, mappingMatches p m' = true →
        m'.sourcePrefix.length ≤ m.sourcePrefix.length) ∧
      resolve_path p ms = some (rewriteBy p m) := by
  rcases h with ⟨m0, hm0, hp0⟩
  have hne : ms.isEmpty = false := by
    cases ms with
    | nil => simp at hm0
    | cons a as => rfl
  have hperm := sortMappings_perm ms
  have hsome : ((sortMappings ms).find? (mappingMatches p)).isSome = true := by
    rw [List.find?_isSome]
    exact ⟨m0, hperm.mem_iff.mpr hm0, hp0⟩
  rcases Option.isSome_iff_exists.mp hsome with ⟨x, hx⟩
  refine ⟨x, hperm.mem_iff.mp (List.mem_of_find?_eq_some hx),
    List.find?_some hx, ?_, ?_⟩
  · intro m' hm' hpm'
    exact find?_len_max (sortMappings_pairwise ms) hx m'
      (hperm.mem_iff.mpr hm') hpm'
  · unfold resolve_path
    rw [hne]
    simp [hx]

theorem resolve_path_of_no_match {p : Str} {ms : List PathMapping}
    (h : ∀ m ∈ ms, mappingMatches p m = false) :
    resolve_path p ms = none := by
  unfold resolve_path
  split
  · rfl
  · have : (sortMappings ms).find? (mappingMatches p) = none := by
      rw [List.find?_eq_none]
      intro x hx
      rw [h x ((sortMappings_perm ms).mem_iff.mp hx)]
      simp
    simp [this]

/-!
## Claim theorems
-/

/-- C3 (amended): for every source path, worker-locality flag, mapping table
and origin-SSH flag, when some mapping with a nonempty `source_prefix`
matches the path, `resolve_path` rewrites by a matching mapping of maximal
prefix length (this settles ties by input order, so the result is
order-independent only up to equal-length prefixes); the resolver returns a
mapped mode exactly when the rewritten path is nonempty, and otherwise
falls through to ssh_pull / local / ssh_transfer exactly as claimed. -/
theorem C3_mode_resolver (p : Str) (ms : List PathMapping) (wl ssh : Bool) :
    ((∃ m ∈ ms, mappingMatches p m = true) →
      ∃ m ∈ ms, mappingMatches p m = true ∧
        (∀ m' ∈ ms, mappingMatches p m' = true →
          m'.sourcePrefix.length ≤ m.sourcePrefix.length) ∧
        resolve_path p ms = some (rewriteBy p m)) ∧
    ((∀ m ∈ ms, mappingMatches p m = false) → resolve_path p ms = none) ∧
    (∀ r, resolve_path p ms = some r → r ≠ [] →
      determine_transfer_mode p wl ms ssh = ("mapped", some r)) ∧
    ((resolve_path p ms = none ∨ resolve_path p ms = some []) →
      determine_transfer_mode p wl ms ssh =
        if wl then (if ssh then ("ssh_pull", (none : Option Str)) else ("local", some p))
        else ("ssh_transfer", none)) := by
  refine ⟨resolve_path_of_match, resolve_path_of_no_match, ?_, ?_⟩
  · intro r hr hne
    unfold determine_transfer_mode
    rw [hr]
    simp [List.isEmpty_iff, hne]
  · intro h
    unfold determine_transfer_mode determineNoMapping
    rcases h with h | h
    · rw [h]
    · rw [h]
      simp [List.isEmpty]

/-- C3 counterexample: the claim quantifies over mappings whose
`source_prefix` is any prefix of the path, but (a) a mapping with an empty
`source_prefix` is a prefix of every path yet is never applied (the resolver
returns the local mode instead of a mapped one), and (b) with two matching
mappings of equal prefix length the result depends on the table's input
order, contradicting order-independence. -/
theorem C3_counterexample :
    (determine_transfer_mode ("/a").data true
        [{ sourcePrefix := [], targetPrefix := ("/x").data }] false
      = ("local", some ("/a").data)) ∧
    (([] : Str).isPrefixOf ("/a").data = true) ∧
    (resolve_path ("/a/f").data
        [{ sourcePrefix := ("/a").data, targetPrefix := ("/x").data },
         { sourcePrefix := ("/a").data, targetPrefix := ("/y").data }] ≠
     resolve_path ("/a/f").data
        [{ sourcePrefix := ("/a").data, targetPrefix := ("/y").data },
         { sourcePrefix := ("/a").data, targetPrefix := ("/x").data }]) := by
  decide

/-- C3 witness: the amended theorem applied at a concrete table. -/
theorem C3_witness :
    ∃ m ∈ [{ sourcePrefix := ("/nas").data, targetPrefix := ("/mnt").data : PathMapping }],
      mappingMatches ("/nas/x.mkv").data m = true ∧
      (∀ m' ∈ [{ sourcePrefix := ("/nas").data, targetPrefix := ("/mnt").data : PathMapping }],
        mappingMatches ("/nas/x.mkv").data m' = true →
          m'.sourcePrefix.length ≤ m.sourcePrefix.length) ∧
      resolve_path ("/nas/x.mkv").data
        [{ sourcePrefix := ("/nas").data, targetPrefix := ("/mnt").data }]
        = some (rewriteBy ("/nas/x.mkv").data m) :=
  (C3_mode_resolver ("/nas/x.mkv").data
    [{ sourcePrefix := ("/nas").data, targetPrefix := ("/mnt").data }] true false).1
    (by decide)

/-- C2 (amended): for every worker considered during scheduling,
`activeCount` counts exactly the jobs assigned to that worker whose status
is in {transcoding, verifying, replacing} — the code's set, which omits the
`transferring` status the claim includes — and the load cost equals
`100 * activeJobs / max(max_concurrent_jobs, 1)`. -/
theorem C2_active_count_load_cost (jobs : List JobRow) (wid : Nat)
    (w : WorkerServer) (active : Nat) :
    activeCount jobs wid =
      (jobs.filter (fun j => decide (j.worker_server_id = some wid ∧
        (j.status = "transcoding" ∨ j.status = "verifying" ∨
         j.status = "replacing")))).length ∧
    loadCost w active = 100 * (active : ℚ) / (max w.max_concurrent_jobs 1 : Nat) := by
  constructor
  · unfold activeCount
    refine congrArg List.length (List.filter_congr ?_)
    intro j _
    rw [Bool.eq_iff_iff]
    simp only [schedulingActiveStatuses, List.contains, Bool.and_eq_true,
      beq_iff_eq, List.elem_eq_mem, List.mem_cons, List.not_mem_nil, or_false,
      decide_eq_true_eq]
  · unfold loadCost
    ring

/-- C2 counterexample: a job currently `transferring` on worker 1 is not
counted by the scheduler's active-job query, although the claimed status set
includes `transferring` and would count it. -/
theorem C2_counterexample :
    activeCount [{ worker_server_id := some 1, status := "transferring" }] 1 = 0 ∧
    specActiveCount [{ worker_server_id := some 1, status := "transferring" }] 1 = 1 ∧
    activeCount [{ worker_server_id := some 1, status := "transferring" }] 1 ≠
      specActiveCount [{ worker_server_id := some 1, status := "transferring" }] 1 := by
  decide

/-- C6 (code bug): the claim's crash-recovery reset is the program's clear
intent (spec scenario D and the recovery loop at transcode_worker.py:87-94),
but the ORM maps no `source_prestaged` attribute, so building the second
recovery query at transcode_worker.py:100 raises `AttributeError` before
the commit at line 108; the session rolls back and a mid-flight
`transferring` job keeps its status, its stale prestaged flag and its
worker assignment — no orphaned job is ever durably reset to queued. -/
theorem C6_runtime_recovery :
    ormReadOk "source_prestaged" = false ∧
    (recover_orphaned_jobs_runtime [{ sampleJob with status := "transferring" }]).raised =
      some "AttributeError: source_prestaged" ∧
    (recover_orphaned_jobs_runtime [{ sampleJob with status := "transferring" }]).durable =
      [{ sampleJob with status := "transferring" }] ∧
    (recover_orphaned_jobs_runtime [{ sampleJob with status := "transferring" }]).durable.map
      TranscodeJob.status = ["transferring"] ∧
    (recover_orphaned_jobs_runtime [{ sampleJob with status := "transferring" }]).durable.map
      TranscodeJob.source_prestaged = [true] ∧
    (recover_orphaned_jobs_runtime [{ sampleJob with status := "transferring" }]).durable.map
      TranscodeJob.worker_server_id = [some 7] := by
  refine ⟨by decide, by decide, rfl, by decide, by decide, by decide⟩

/-- C4 (code bug): the claim's retry/backoff policy is the program's clear
intent (spec 4.5 and scenario C, the full retry implementation at
transcode_worker.py:1742-1759, the schema defaults `retry_count=0` /
`max_retries=3` and the `job.retry_scheduled` broadcast), but the ORM maps
neither `retry_count` nor `max_retries`, so the retry check at
transcode_worker.py:1743 raises `AttributeError` on every handled failure:
the job is durably marked failed (committed at line 1730) with its worker
assignment intact and no backoff scheduled, and is never re-queued. -/
theorem C4_runtime_failure :
    ormReadOk "retry_count" = false ∧
    ormReadOk "max_retries" = false ∧
    (handle_failure_runtime 100 sampleJob).raised = some "AttributeError: retry_count" ∧
    (handle_failure_runtime 100 sampleJob).job.status = "failed" ∧
    (handle_failure_runtime 100 sampleJob).retryScheduled = false ∧
    (handle_failure_runtime 100 sampleJob).job.worker_server_id = some 7 ∧
    (handle_failure_runtime 100 sampleJob).job.scheduled_after = none ∧
    (handle_failure_runtime 100 sampleJob).job.retry_count = none := by
  decide

theorem validate_output_duration_fail (j : TranscodeJob) (info : ProbeInfo) (d : ℚ)
    (hd0 : 0 < d) (hod : 0 < info.duration) (hdiff : 2 < |info.duration - d|) :
    (validate_output j (some info) (some d)).2 = false ∧
    (validate_output j (some info) (some d)).1.validation_status = some "failed" := by
  unfold validate_output
  dsimp only
  by_cases hv : info.video_codec = none
  · simp [hv]
  · rw [if_neg hv]
    by_cases hs : info.size < 1048576
    · simp [hs]
    · rw [if_neg hs]
      rw [if_pos ⟨ne_of_gt hd0, hd0, hod, hdiff⟩]
      exact ⟨rfl, rfl⟩

theorem handle_failure_validation_status (now : Nat) (j : TranscodeJob) :
    (handle_failure now j).job.validation_status = j.validation_status := by
  unfold handle_failure
  dsimp only
  split
  · rfl
  · rfl

/-- C5 (amended): for every job whose output is verified by the local
success handler (`_handle_success` — local/mapped encodes and the
download-to-local leg of ssh_transfer), a successfully probed output whose
duration differs from the known source duration by more than 2 seconds marks
`validation_status = failed`, routes the job through the failure handler,
and never reaches the replacing step. The ssh_pull and NAS-relay completion
paths perform no such validation (see the counterexample). -/
theorem C5_duration_validation (now : Nat) (job : TranscodeJob)
    (mediaDurationMs : Option (Option ℚ)) (probe : Str → Option ProbeInfo)
    (fs : List Str) (failAt : Option (Fin 3)) (restoreOk : Bool)
    (p : Str) (info : ProbeInfo) (d : ℚ)
    (hp : probePathOf { job with status := "verifying" } = some p)
    (hprobe : probe p = some info)
    (hd : sourceDurationOf mediaDurationMs = some d)
    (hd0 : 0 < d) (hod : 0 < info.duration)
    (hdiff : 2 < |info.duration - d|) :
    (handle_success now job mediaDurationMs probe fs failAt restoreOk).job.validation_status
      = some "failed" ∧
    (handle_success now job mediaDurationMs probe fs failAt restoreOk).wentToFailureHandler
      = true ∧
    (handle_success now job mediaDurationMs probe fs failAt restoreOk).replaceOutcome
      = none ∧
    (handle_success now job mediaDurationMs probe fs failAt restoreOk).completed
      = false := by
  have hval := validate_output_duration_fail
    { job with status := "verifying", output_size := some info.size } info d hd0 hod hdiff
  unfold handle_success
  simp only [hp, hprobe, hd, hval.1, Bool.not_false, if_true]
  exact ⟨by rw [handle_failure_validation_status]; exact hval.2, trivial, trivial, trivial⟩

/-- C5 counterexample: on the ssh_pull path a job whose local encode exits 0
is uploaded back and the original replaced on the NAS, and the job is marked
completed with `validation_status` still unset — no duration check ever
runs, even though an output of duration 50 s against a 100 s source is off
by 48 s, far beyond the 2-second tolerance the claim requires to force a
failure. -/
theorem C5_counterexample :
    ((execute_ssh_pull_post 5 sampleJob ("/tmp/movie.mediaflow.mkv").data 0 true true).job.status
      = "completed") ∧
    ((execute_ssh_pull_post 5 sampleJob ("/tmp/movie.mediaflow.mkv").data 0 true true).replacedOnNas
      = true) ∧
    ((execute_ssh_pull_post 5 sampleJob ("/tmp/movie.mediaflow.mkv").data 0 true true).job.validation_status
      = none) ∧
    (2 < |(50 : ℚ) - 100|) := by
  refine ⟨by decide, by decide, by decide, by norm_num⟩

theorem pathExists_iff {fs : List Str} {p : Str} : pathExists fs p = true ↔ p ∈ fs := by
  simp [pathExists, List.contains, List.elem_eq_mem]

theorem pathExists_false_iff {fs : List Str} {p : Str} :
    pathExists fs p = false ↔ p ∉ fs := by
  simp [pathExists, List.contains, List.elem_eq_mem]

theorem ne_append_of_nonempty {op suf : Str} (h : suf ≠ []) : op ≠ op ++ suf := by
  intro he
  have hlen := congrArg List.length he
  rw [List.length_append] at hlen
  have hz : suf.length = 0 := by omega
  exact h (List.length_eq_zero.mp hz)

/-- C7 (amended): in-place replacement renames the original to a `.original`
backup, moves the output into the original's place with the extension
adjusted if the container changed, and deletes the backup only after both
renames succeeded; when a step raises, nothing is replaced and a restore is
attempted exactly when the backup exists and the original's path is vacant,
and a successful restore puts the original back in place with the backup
gone — but the error is only logged: with a probed and validated output the
success handler completes the job regardless of the replacement outcome,
rather than surfacing a failure. -/
theorem C7_in_place_replacement (job : TranscodeJob) (outputPath : Str)
    (fs : List Str) (failAt : Option (Fin 3)) (restoreOk : Bool) :
    ((replace_original job outputPath fs failAt restoreOk).backupDeleted = true →
      failAt = none ∧
      (replace_original job outputPath fs failAt restoreOk).replaced = true) ∧
    (pathExists fs outputPath = true →
     pathExists fs (pyOrStr job.worker_input_path job.source_path) = true →
     failAt = none →
      (replace_original job outputPath fs failAt restoreOk).replaced = true ∧
      (replace_original job outputPath fs failAt restoreOk).backupDeleted = true ∧
      (replace_original job outputPath fs failAt restoreOk).job.output_path =
        some (if splitextExt (pyOrStr job.worker_input_path job.source_path) ≠
                splitextExt outputPath
              then splitextRoot (pyOrStr job.worker_input_path job.source_path) ++
                splitextExt outputPath
              else pyOrStr job.worker_input_path job.source_path)) ∧
    (∀ k : Fin 3, failAt = some k →
      (replace_original job outputPath fs failAt restoreOk).replaced = false ∧
      (replace_original job outputPath fs failAt restoreOk).backupDeleted = false) ∧
    (∀ (now : Nat) (mediaDurationMs : Option (Option ℚ))
       (probe : Str → Option ProbeInfo) (p : Str) (info : ProbeInfo),
      probePathOf { job with status := "verifying" } = some p →
      probe p = some info →
      (validate_output { job with status := "verifying", output_size := some info.size }
        (some info) (sourceDurationOf mediaDurationMs)).2 = true →
      (handle_success now job mediaDurationMs probe fs failAt restoreOk).completed = true) ∧
    (∀ (j : TranscodeJob) (fsx : List Str) (op bp : Str) (rOk : Bool) (k : Fin 3),
      ((replaceRescue j fsx op bp rOk k).restoreAttempted = true ↔
        (pathExists fsx bp = true ∧ pathExists fsx op = false)) ∧
      ((replaceRescue j fsx op bp rOk k).restoreAttempted = true → rOk = true →
        pathExists (replaceRescue j fsx op bp rOk k).fs op = true) ∧
      ((replaceRescue j fsx op bp rOk k).restoreAttempted = false →
        (replaceRescue j fsx op bp rOk k).fs = fsx)) ∧
    (fs.Nodup →
     pathExists fs outputPath = true →
     pathExists fs (pyOrStr job.worker_input_path job.source_path) = true →
     pathExists fs
       (pyOrStr job.worker_input_path job.source_path ++ (".original").data) = false →
     failAt = some 1 → restoreOk = true →
      (replace_original job outputPath fs failAt restoreOk).restoreAttempted = true ∧
      pathExists (replace_original job outputPath fs failAt restoreOk).fs
        (pyOrStr job.worker_input_path job.source_path) = true ∧
      pathExists (replace_original job outputPath fs failAt restoreOk).fs
        (pyOrStr job.worker_input_path job.source_path ++ (".original").data) = false) := by
  refine ⟨?_, ?_, ?_, ?_, ?_, ?_⟩
  · intro hbd
    rcases failAt with _ | k
    · by_cases h1 : pathExists fs outputPath
      · by_cases h2 : pathExists fs (pyOrStr job.worker_input_path job.source_path)
        · exact ⟨rfl, by simp [replace_original, h1, h2]⟩
        · simp [replace_original, h1, h2] at hbd
      · simp [replace_original, h1] at hbd
    · exfalso
      fin_cases k <;>
        by_cases h1 : pathExists fs outputPath <;>
        by_cases h2 : pathExists fs (pyOrStr job.worker_input_path job.source_path) <;>
        simp [replace_original, replaceRescue, h1, h2] at hbd
  · intro h1 h2 hf
    subst hf
    refine ⟨?_, ?_, ?_⟩ <;> simp [replace_original, h1, h2]
  · intro k hf
    subst hf
    fin_cases k <;>
      by_cases h1 : pathExists fs outputPath <;>
      by_cases h2 : pathExists fs (pyOrStr job.worker_input_path job.source_path) <;>
      simp [replace_original, replaceRescue, h1, h2]
  · intro now mediaDurationMs probe p info hp hprobe hv
    unfold handle_success
    simp only [hp, hprobe, hv, Bool.not_true, Bool.false_eq_true, if_false]
    split <;> rfl
  · intro j fsx op bp rOk k
    refine ⟨?_, ?_, ?_⟩
    · unfold replaceRescue
      dsimp only
      simp [Bool.and_eq_true, Bool.not_eq_true']
    · intro hatt hok
      unfold replaceRescue at hatt ⊢
      dsimp only at hatt ⊢
      rw [hatt, hok]
      show pathExists (renameFs fsx bp op) op = true
      rw [pathExists_iff]
      exact List.mem_cons_self _ _
    · intro hatt
      unfold replaceRescue at hatt ⊢
      dsimp only at hatt ⊢
      rw [hatt]
      simp
  · intro hnd h1 h2 hbp hf hok
    subst hf
    subst hok
    unfold replace_original
    dsimp only
    rw [if_neg (by simp [h1]), if_neg (by simp [h2]), if_neg (by decide), if_pos rfl]
    set OP := pyOrStr job.worker_input_path job.source_path with hOP
    set BP := OP ++ (".original").data with hBP
    have hne : OP ≠ BP := by
      rw [hBP]
      exact ne_append_of_nonempty (by decide)
    have hb1 : pathExists (renameFs fs OP BP) BP = true := by
      rw [pathExists_iff]
      exact List.mem_cons_self _ _
    have ho1 : pathExists (renameFs fs OP BP) OP = false := by
      rw [pathExists_false_iff]
      intro hmem
      rcases List.mem_cons.mp hmem with he | hmem'
      · exact hne he
      · exact ((List.Nodup.mem_erase_iff hnd).mp hmem').1 rfl
    unfold replaceRescue
    dsimp only
    rw [hb1, ho1]
    refine ⟨rfl, ?_, ?_⟩
    · show pathExists (renameFs (renameFs fs OP BP) BP OP) OP = true
      rw [pathExists_iff]
      exact List.mem_cons_self _ _
    · show pathExists (renameFs (renameFs fs OP BP) BP OP) BP = false
      rw [pathExists_false_iff]
      intro hmem
      rcases List.mem_cons.mp hmem with he | hmem'
      · exact hne he.symm
      · rw [renameFs, List.erase_cons_head] at hmem'
        exact (pathExists_false_iff.mp hbp) (List.mem_of_mem_erase hmem')

/-- C7 counterexample: with the backup-removal step failing after both
renames succeeded (and the original's path occupied by the new file, so no
restore is possible), the backup file is left behind and the job is still
marked completed — no failure is surfaced. -/
theorem C7_counterexample :
    ((handle_success 0 jobC7 (some none) probeGood fsC7 (some 2) true).completed = true) ∧
    ((handle_success 0 jobC7 (some none) probeGood fsC7 (some 2) true).job.status
      = "completed") ∧
    ((handle_success 0 jobC7 (some none) probeGood fsC7 (some 2) true).replaceOutcome.map
      ReplaceOutcome.backupDeleted = some false) ∧
    ((handle_success 0 jobC7 (some none) probeGood fsC7 (some 2) true).replaceOutcome.map
      (fun ro => pathExists ro.fs (("/m/v.mkv").data ++ (".original").data)) = some true) := by
  decide

/-- C7 witness: the amended theorem's success clause applied to the concrete
replacement scenario. -/
theorem C7_witness :
    (replace_original jobC7 (("/m/v.mediaflow.mkv").data) fsC7 none true).replaced = true ∧
    (replace_original jobC7 (("/m/v.mediaflow.mkv").data) fsC7 none true).backupDeleted = true ∧
    (replace_original jobC7 (("/m/v.mediaflow.mkv").data) fsC7 none true).job.output_path =
      some (if splitextExt (pyOrStr jobC7.worker_input_path jobC7.source_path) ≠
              splitextExt (("/m/v.mediaflow.mkv").data)
            then splitextRoot (pyOrStr jobC7.worker_input_path jobC7.source_path) ++
              splitextExt (("/m/v.mediaflow.mkv").data)
            else pyOrStr jobC7.worker_input_path jobC7.source_path) :=
  (C7_in_place_replacement jobC7 (("/m/v.mediaflow.mkv").data) fsC7 none true).2.1
    (by decide) (by decide) rfl

/-- C5 witness: the amended validation theorem applied to a concrete job
whose probed output lasts 10 s against a 2 s source. -/
theorem C5_witness :
    (handle_success 9 sampleJob (some (some 2000))
      (fun _ => some { duration := 10, size := 1048576, video_codec := some "hevc" })
      [] none true).job.validation_status = some "failed" ∧
    (handle_success 9 sampleJob (some (some 2000))
      (fun _ => some { duration := 10, size := 1048576, video_codec := some "hevc" })
      [] none true).wentToFailureHandler = true ∧
    (handle_success 9 sampleJob (some (some 2000))
      (fun _ => some { duration := 10, size := 1048576, video_codec := some "hevc" })
      [] none true).replaceOutcome = none ∧
    (handle_success 9 sampleJob (some (some 2000))
      (fun _ => some { duration := 10, size := 1048576, video_codec := some "hevc" })
      [] none true).completed = false :=
  C5_duration_validation 9 sampleJob (some (some 2000))
    (fun _ => some { duration := 10, size := 1048576, video_codec := some "hevc" })
    [] none true (("/tmp/movie.mediaflow.mkv").data)
    { duration := 10, size := 1048576, video_codec := some "hevc" }
    ((2000 : ℚ) / 1000)
    (by decide) rfl (by simp [sourceDurationOf]) (by norm_num) (by norm_num) (by norm_num)

theorem upload_tiers_not_fast (k p : Option Str) (s : Nat) (o : TransferOracles)
    (h : (truthyStr k && !truthyStr p) = false) :
    (upload_file k p s o).2 = [Tier.sftp] ∨
    ((upload_file k p s o).2 = [Tier.sftp, Tier.chunked] ∧
      o.sftpPut = SftpResult.oserror 45) := by
  unfold upload_file
  rw [if_neg (by simp [h])]
  unfold sftpUploadTier
  rcases hsp : o.sftpPut with _ | n | _
  · simp
  · by_cases hn : n = 45
    · subst hn; simp
    · simp [hn]
  · simp

theorem upload_tiers_fast_large (k p : Option Str) (s : Nat) (o : TransferOracles)
    (h : (truthyStr k && !truthyStr p) = true) (hs : 100 * 1024 * 1024 ≤ s) :
    (upload_file k p s o).2 = [Tier.parallel] ∨
    (upload_file k p s o).2 = [Tier.parallel, Tier.rsync] ∨
    (upload_file k p s o).2 = [Tier.parallel, Tier.rsync, Tier.sftp] ∨
    ((upload_file k p s o).2 = [Tier.parallel, Tier.rsync, Tier.sftp, Tier.chunked] ∧
      o.sftpPut = SftpResult.oserror 45) := by
  unfold upload_file
  rw [if_pos h, if_pos hs]
  by_cases hpo : o.parallelOk
  · simp [hpo]
  · by_cases hro : o.rsyncOk
    · simp [hpo, hro]
    · rw [if_neg (by simp [hpo]), if_neg (by simp [hro])]
      unfold sftpUploadTier
      rcases hsp : o.sftpPut with _ | n | _
      · simp
      · by_cases hn : n = 45
        · subst hn; simp
        · simp [hn]
      · simp

theorem upload_tiers_fast_small (k p : Option Str) (s : Nat) (o : TransferOracles)
    (h : (truthyStr k && !truthyStr p) = true) (hs : ¬ 100 * 1024 * 1024 ≤ s) :
    (upload_file k p s o).2 = [Tier.rsync] ∨
    (upload_file k p s o).2 = [Tier.rsync, Tier.sftp] ∨
    ((upload_file k p s o).2 = [Tier.rsync, Tier.sftp, Tier.chunked] ∧
      o.sftpPut = SftpResult.oserror 45) := by
  unfold upload_file
  rw [if_pos h, if_neg hs]
  by_cases hro : o.rsyncOk
  · simp [hro]
  · rw [if_neg (by simp [hro])]
    unfold sftpUploadTier
    rcases hsp : o.sftpPut with _ | n | _
    · simp
    · by_cases hn : n = 45
      · subst hn; simp
      · simp [hn]
    · simp

theorem download_tiers_not_fast (k p : Option Str) (s : Nat) (o : TransferOracles)
    (h : (truthyStr k && !truthyStr p) = false) :
    (download_file k p s o).2 = [Tier.sftp] := by
  unfold download_file
  rw [if_neg (by simp [h])]

theorem download_tiers_fast (k p : Option Str) (s : Nat) (o : TransferOracles)
    (h : (truthyStr k && !truthyStr p) = true) :
    (download_file k p s o).2 = [Tier.parallel] ∨
    (download_file k p s o).2 = [Tier.parallel, Tier.rsync] ∨
    (download_file k p s o).2 = [Tier.parallel, Tier.rsync, Tier.sftp] ∨
    (download_file k p s o).2 = [Tier.rsync] ∨
    (download_file k p s o).2 = [Tier.rsync, Tier.sftp] := by
  unfold download_file
  rw [if_pos h]
  by_cases hs : 100 * 1024 * 1024 ≤ s
  · rw [if_pos hs]
    by_cases hpo : o.parallelOk
    · simp [hpo]
    · by_cases hro : o.rsyncOk
      · simp [hpo, hro]
      · simp [hpo, hro]
  · rw [if_neg hs]
    by_cases hro : o.rsyncOk
    · simp [hro]
    · simp [hro]

theorem download_tiers_fast_small (k p : Option Str) (s : Nat) (o : TransferOracles)
    (h : (truthyStr k && !truthyStr p) = true) (hs : ¬ 100 * 1024 * 1024 ≤ s) :
    (download_file k p s o).2 = [Tier.rsync] ∨
    (download_file k p s o).2 = [Tier.rsync, Tier.sftp] := by
  unfold download_file
  rw [if_pos h, if_neg hs]
  by_cases hro : o.rsyncOk
  · simp [hro]
  · simp [hro]

/-- C10: the parallel segmented tier and the rsync bulk-copy tier run only
when the SSH client has a key file configured and no password; otherwise
both upload and download go straight to the single-stream SFTP tier
regardless of file size; the chunked manual-copy fallback applies exactly on
the network-mount `OSError` with errno 45 during an SFTP upload and never on
a download; and the parallel tier is attempted only for transfers of at
least 100 MB. -/
theorem C10_strategy_ladder (keyPath password : Option Str) (fileSize totalSize : Nat)
    (o : TransferOracles) :
    ((Tier.parallel ∈ (upload_file keyPath password fileSize o).2 ∨
      Tier.rsync ∈ (upload_file keyPath password fileSize o).2 ∨
      Tier.parallel ∈ (download_file keyPath password totalSize o).2 ∨
      Tier.rsync ∈ (download_file keyPath password totalSize o).2) →
      truthyStr keyPath = true ∧ truthyStr password = false) ∧
    ((truthyStr keyPath && !truthyStr password) = false →
      ((upload_file keyPath password fileSize o).2 = [Tier.sftp] ∨
       ((upload_file keyPath password fileSize o).2 = [Tier.sftp, Tier.chunked] ∧
         o.sftpPut = SftpResult.oserror 45)) ∧
      (download_file keyPath password totalSize o).2 = [Tier.sftp]) ∧
    ((Tier.chunked ∈ (upload_file keyPath password fileSize o).2 →
      o.sftpPut = SftpResult.oserror 45 ∧
      Tier.sftp ∈ (upload_file keyPath password fileSize o).2) ∧
     Tier.chunked ∉ (download_file keyPath password totalSize o).2) ∧
    (Tier.parallel ∈ (upload_file keyPath password fileSize o).2 →
      100 * 1024 * 1024 ≤ fileSize) ∧
    (Tier.parallel ∈ (download_file keyPath password totalSize o).2 →
      100 * 1024 * 1024 ≤ totalSize) := by
  by_cases hfast : (truthyStr keyPath && !truthyStr password) = true
  · have hk : truthyStr keyPath = true ∧ truthyStr password = false := by
      rcases Bool.and_eq_true .. |>.mp hfast with ⟨h1, h2⟩
      exact ⟨h1, by simpa using h2⟩
    refine ⟨fun _ => hk, fun hcon => absurd hfast (by simp [hcon]), ⟨?_, ?_⟩, ?_, ?_⟩
    · intro hch
      by_cases hs : 100 * 1024 * 1024 ≤ fileSize
      · rcases upload_tiers_fast_large keyPath password fileSize o hfast hs with
          h | h | h | ⟨h, he⟩ <;> rw [h] at hch ⊢ <;> simp_all
      · rcases upload_tiers_fast_small keyPath password fileSize o hfast hs with
          h | h | ⟨h, he⟩ <;> rw [h] at hch ⊢ <;> simp_all
    · rcases download_tiers_fast keyPath password totalSize o hfast with
        h | h | h | h | h <;> simp [h]
    · intro hmem
      by_cases hs : 100 * 1024 * 1024 ≤ fileSize
      · exact hs
      · exfalso
        rcases upload_tiers_fast_small keyPath password fileSize o hfast hs with
          h | h | ⟨h, _⟩ <;> rw [h] at hmem <;> simp_all
    · intro hmem
      by_cases hs : 100 * 1024 * 1024 ≤ totalSize
      · exact hs
      · exfalso
        rcases download_tiers_fast_small keyPath password totalSize o hfast hs with
          h | h <;> rw [h] at hmem <;> simp_all
  · have hfast' : (truthyStr keyPath && !truthyStr password) = false := by
      cases hx : (truthyStr keyPath && !truthyStr password)
      · rfl
      · exact absurd hx hfast
    have hup := upload_tiers_not_fast keyPath password fileSize o hfast'
    have hdl := download_tiers_not_fast keyPath password totalSize o hfast'
    refine ⟨?_, fun _ => ⟨hup, hdl⟩, ⟨?_, by simp [hdl]⟩, ?_, by simp [hdl]⟩
    · intro hmem
      exfalso
      rcases hup with h | ⟨h, _⟩ <;> rw [h] at hmem <;> rw [hdl] at hmem <;> simp_all
    · intro hch
      rcases hup with h | ⟨h, he⟩
      · rw [h] at hch; simp_all
      · rw [h] at hch ⊢; simp [he]
    · intro hmem
      exfalso
      rcases hup with h | ⟨h, _⟩ <;> rw [h] at hmem <;> simp_all

/-- C10 witness: with a password configured, a 1 GB upload and download both
go straight to the single-stream SFTP tier. -/
theorem C10_witness :
    (((upload_file (some ("/root/.ssh/id").data) (some ("pw").data) 1073741824
        { parallelOk := true, rsyncOk := true, sftpPut := SftpResult.ok,
          chunkedOk := true, sftpGetOk := true }).2 = [Tier.sftp] ∨
      ((upload_file (some ("/root/.ssh/id").data) (some ("pw").data) 1073741824
        { parallelOk := true, rsyncOk := true, sftpPut := SftpResult.ok,
          chunkedOk := true, sftpGetOk := true }).2 = [Tier.sftp, Tier.chunked] ∧
        ({ parallelOk := true, rsyncOk := true, sftpPut := SftpResult.ok,
           chunkedOk := true, sftpGetOk := true : TransferOracles }).sftpPut
          = SftpResult.oserror 45)) ∧
     (download_file (some ("/root/.ssh/id").data) (some ("pw").data) 1073741824
        { parallelOk := true, rsyncOk := true, sftpPut := SftpResult.ok,
          chunkedOk := true, sftpGetOk := true }).2 = [Tier.sftp]) :=
  (C10_strategy_ladder (some ("/root/.ssh/id").data) (some ("pw").data)
    1073741824 1073741824
    { parallelOk := true, rsyncOk := true, sftpPut := SftpResult.ok,
      chunkedOk := true, sftpGetOk := true }).2.1 (by decide)

theorem segWrite_end_le (total : Nat) (h100 : 100 * 1024 * 1024 ≤ total) :
    ∀ i, i < 4 →
      i * (total / MB / 4) * MB + segWriteLen total (total / MB / 4) 4 i ≤ total := by
  intro i hi
  interval_cases i <;> (simp [segWriteLen, segCountMB, MB] at *) <;> omega

theorem seg_covers (total b : Nat) (h100 : 100 * 1024 * 1024 ≤ total) (hb : b < total) :
    ∃ i, i < 4 ∧ i * (total / MB / 4) * MB ≤ b ∧
      b < i * (total / MB / 4) * MB + segWriteLen total (total / MB / 4) 4 i := by
  by_cases c1 : b < 1 * (total / MB / 4) * MB
  · exact ⟨0, by norm_num, by (simp [MB] at *) <;> omega,
      by (simp [segWriteLen, segCountMB, MB] at *) <;> omega⟩
  · by_cases c2 : b < 2 * (total / MB / 4) * MB
    · exact ⟨1, by norm_num, by (simp [MB] at *) <;> omega,
        by (simp [segWriteLen, segCountMB, MB] at *) <;> omega⟩
    · by_cases c3 : b < 3 * (total / MB / 4) * MB
      · exact ⟨2, by norm_num, by (simp [MB] at *) <;> omega,
          by (simp [segWriteLen, segCountMB, MB] at *) <;> omega⟩
      · exact ⟨3, by norm_num, by (simp [MB] at *) <;> omega,
          by (simp [segWriteLen, segCountMB, MB] at *) <;> omega⟩

theorem foldl_size_max_eq (total : Nat) :
    ∀ (ws : List (Nat × Nat)), (∀ w ∈ ws, w.1 + w.2 ≤ total) →
      ws.foldl (fun s w => max s (w.1 + w.2)) total = total := by
  intro ws
  induction ws with
  | nil => intro _; rfl
  | cons w ws ih =>
      intro h
      simp only [List.foldl_cons]
      rw [Nat.max_eq_left (h w (List.mem_cons_self w ws))]
      exact ih (fun x hx => h x (List.mem_cons_of_mem _ hx))

theorem parallel_upload_dst_eq (total : Nat) (preOk : Bool) (segOk : Nat → Bool)
    (hseg : ¬ total / MB / 4 < 1) (hpre : preOk = true) :
    (parallel_ssh_upload total preOk segOk).2 =
      { size := dstSizeAfter total ((List.range 4).filterMap (fun i =>
          if segOk i then some (i * (total / MB / 4) * MB,
            segWriteLen total (total / MB / 4) 4 i) else none))
        written := (List.range 4).filterMap (fun i =>
          if segOk i then some (i * (total / MB / 4) * MB,
            segWriteLen total (total / MB / 4) 4 i) else none) } := by
  unfold parallel_ssh_upload
  rw [if_neg hseg, if_neg (by simp [hpre])]
  dsimp only
  split
  · split
    · rfl
    · rfl
  · rfl

theorem parallel_upload_writes_bounded (total : Nat) (segOk : Nat → Bool)
    (h100 : 100 * 1024 * 1024 ≤ total) :
    ∀ w ∈ (List.range 4).filterMap (fun i =>
        if segOk i then some (i * (total / MB / 4) * MB,
          segWriteLen total (total / MB / 4) 4 i) else none),
      w.1 + w.2 ≤ total := by
  intro w hw
  rcases List.mem_filterMap.mp hw with ⟨i, hi, hfi⟩
  by_cases hs : segOk i
  · rw [if_pos hs] at hfi
    cases hfi
    exact segWrite_end_le total h100 i (List.mem_range.mp hi)
  · rw [if_neg hs] at hfi
    cases hfi

theorem parallel_upload_success_conditions (total : Nat) (preOk : Bool)
    (segOk : Nat → Bool) (h : (parallel_ssh_upload total preOk segOk).1 = true) :
    ¬ total / MB / 4 < 1 ∧ preOk = true ∧ ∀ i ∈ List.range 4, segOk i = true := by
  unfold parallel_ssh_upload at h
  by_cases hseg : total / MB / 4 < 1
  · simp [hseg] at h
  · rw [if_neg hseg] at h
    by_cases hpre : preOk
    · refine ⟨hseg, hpre, ?_⟩
      rw [if_neg (by simp [hpre])] at h
      dsimp only at h
      by_cases hall : (List.range 4).all segOk
      · exact fun i hi => List.all_eq_true.mp hall i hi
      · simp [hall] at h
    · simp [hpre] at h

/-- C8: for every parallel segmented upload of a file of at least 100 MB,
the plan splits it into 4 segments; a failure of any single segment fails
the whole transfer; once the pre-allocation has run the modelled destination
size is exactly the source size (the `dd` writes never extend the file); on
success every byte of the destination has been written and its size equals
the source size exactly; and the ladder attempts the parallel tier only for
files of at least 100 MB. -/
theorem C8_parallel_segmented (total : Nat) (preOk : Bool) (segOk : Nat → Bool)
    (h100 : 100 * 1024 * 1024 ≤ total) :
    1 ≤ total / MB / 4 ∧
    (∀ i, i < 4 → segOk i = false → (parallel_ssh_upload total preOk segOk).1 = false) ∧
    (preOk = true → (parallel_ssh_upload total preOk segOk).2.size = total) ∧
    ((parallel_ssh_upload total preOk segOk).1 = true →
      (parallel_ssh_upload total preOk segOk).2.size = total ∧
      ∀ b, b < total → coveredBy (parallel_ssh_upload total preOk segOk).2.written b) ∧
    (∀ (k p : Option Str) (s : Nat) (o : TransferOracles),
      Tier.parallel ∈ (upload_file k p s o).2 → 100 * 1024 * 1024 ≤ s) := by
  have hseg : ¬ total / MB / 4 < 1 := by simp [MB]; omega
  refine ⟨by omega, ?_, ?_, ?_, ?_⟩
  · intro i hi hfalse
    unfold parallel_ssh_upload
    rw [if_neg hseg]
    by_cases hpre : preOk
    · rw [if_neg (by simp [hpre])]
      dsimp only
      have hall : (List.range 4).all segOk = false := by
        rcases hx : (List.range 4).all segOk
        · rfl
        · exact absurd (List.all_eq_true.mp hx i (List.mem_range.mpr hi)) (by simp [hfalse])
      simp [hall]
    · simp [hpre]
  · intro hpre
    rw [parallel_upload_dst_eq total preOk segOk hseg hpre]
    exact foldl_size_max_eq total _ (parallel_upload_writes_bounded total segOk h100)
  · intro hsucc
    rcases parallel_upload_success_conditions total preOk segOk hsucc with ⟨_, hpre, hall⟩
    rw [parallel_upload_dst_eq total preOk segOk hseg hpre]
    refine ⟨foldl_size_max_eq total _ (parallel_upload_writes_bounded total segOk h100), ?_⟩
    intro b hb
    rcases seg_covers total b h100 hb with ⟨i, hi, hlo, hhi⟩
    refine ⟨(i * (total / MB / 4) * MB, segWriteLen total (total / MB / 4) 4 i),
      List.mem_filterMap.mpr ⟨i, List.mem_range.mpr hi, ?_⟩, hlo, hhi⟩
    rw [if_pos (hall i (List.mem_range.mpr hi))]
  · intro k p s o hmem
    by_cases hfast : (truthyStr k && !truthyStr p) = true
    · by_cases hs : 100 * 1024 * 1024 ≤ s
      · exact hs
      · exfalso
        rcases upload_tiers_fast_small k p s o hfast hs with h | h | ⟨h, _⟩ <;>
          (rw [h] at hmem; simp_all)
    · exfalso
      have hf : (truthyStr k && !truthyStr p) = false := by
        rcases hx : (truthyStr k && !truthyStr p)
        · rfl
        · exact absurd hx hfast
      rcases upload_tiers_not_fast k p s o hf with h | ⟨h, _⟩ <;>
        (rw [h] at hmem; simp_all)

/-- C8 witness: a 200 MB transfer with all four segments succeeding leaves
the modelled destination at exactly the source size. -/
theorem C8_witness :
    (parallel_ssh_upload 209715200 true (fun _ => true)).2.size = 209715200 :=
  ((C8_parallel_segmented 209715200 true (fun _ => true) (by decide)).2.2.1) rfl

theorem pickFirstMin_mem (c : Candidate) (cs : List Candidate) :
    pickFirstMin c cs ∈ c :: cs := by
  induction cs generalizing c with
  | nil => simp [pickFirstMin]
  | cons x xs ih =>
      have hstep : pickFirstMin c (x :: xs) =
          pickFirstMin (if x.score < c.score then x else c) xs := rfl
      rw [hstep]
      rcases List.mem_cons.mp (ih (if x.score < c.score then x else c)) with h | h
      · rw [h]
        split
        · exact List.mem_cons_of_mem _ (List.mem_cons_self _ _)
        · exact List.mem_cons_self _ _
      · exact List.mem_cons_of_mem _ (List.mem_cons_of_mem _ h)

theorem pickFirstMin_le (c : Candidate) (cs : List Candidate) :
    ∀ x ∈ c :: cs, (pickFirstMin c cs).score ≤ x.score := by
  induction cs generalizing c with
  | nil =>
      intro x hx
      rcases List.mem_cons.mp hx with rfl | h
      · exact le_refl _
      · simp at h
  | cons y ys ih =>
      intro x hx
      have hstep : pickFirstMin c (y :: ys) =
          pickFirstMin (if y.score < c.score then y else c) ys := rfl
      rw [hstep]
      have hle := ih (if y.score < c.score then y else c)
      have hg : (if y.score < c.score then y else c).score ≤ c.score := by
        split
        · exact le_of_lt (by assumption)
        · exact le_refl _
      have hg2 : (if y.score < c.score then y else c).score ≤ y.score := by
        split
        · exact le_refl _
        · exact le_of_not_lt (by assumption)
      rcases List.mem_cons.mp hx with rfl | hx'
      · exact le_trans (hle _ (List.mem_cons_self _ _)) hg
      · rcases List.mem_cons.mp hx' with rfl | hx''
        · exact le_trans (hle _ (List.mem_cons_self _ _)) hg2
        · exact hle x (List.mem_cons_of_mem _ hx'')

theorem candidateFor_ungated (plexPath : Str) (ssh : Bool) (jobs : List JobRow)
    (w : WorkerServer) :
    candidateFor plexPath ssh jobs false w =
      some { score := ungatedScore plexPath ssh jobs w
             workerId := w.id
             mode := (determine_transfer_mode plexPath w.is_local
               (w.path_mappings.getD []) ssh).1
             resolved := (determine_transfer_mode plexPath w.is_local
               (w.path_mappings.getD []) ssh).2 } := by
  unfold candidateFor compute_score ungatedScore compute_score
  simp

theorem candidateFor_gated_none (plexPath : Str) (ssh : Bool) (jobs : List JobRow)
    (w : WorkerServer) (h : w.max_concurrent_jobs ≤ activeCount jobs w.id) :
    candidateFor plexPath ssh jobs true w = none := by
  unfold candidateFor compute_score
  dsimp only
  rw [if_pos (by simpa using h)]
  rfl

/-- C1: for every worker-assignment request with no preferred worker, every
enabled+online worker below capacity is scored by the composite
`0.35*transferCost + 0.30*perfCost + 0.35*loadCost` with perfCost
`100 - performance_score` (50 when unmeasured); workers with
`activeJobs >= max_concurrent_jobs` are excluded from the first scoring
pass; if every worker is excluded, the capacity gate is dropped and the
worker with the lowest ungated score is assigned anyway; and with no
enabled+online worker, no worker is assigned. -/
theorem C1_composite_scoring (ws : List WorkerServer) (jobs : List JobRow)
    (plexPath : Str) (ssh : Bool) :
    (∀ w ∈ onlineWorkers ws, ∀ mode,
      activeCount jobs w.id < w.max_concurrent_jobs →
      compute_score w mode (activeCount jobs w.id) true =
        some ((35 / 100 : ℚ) * TRANSFER_COST mode +
          (30 / 100 : ℚ) * (100 - w.performance_score.getD 50) +
          (35 / 100 : ℚ) * loadCost w (activeCount jobs w.id))) ∧
    (∀ w ∈ onlineWorkers ws, ∀ mode,
      w.max_concurrent_jobs ≤ activeCount jobs w.id →
      compute_score w mode (activeCount jobs w.id) true = none) ∧
    (onlineWorkers ws ≠ [] →
      (∀ w ∈ onlineWorkers ws, w.max_concurrent_jobs ≤ activeCount jobs w.id) →
      ∃ w ∈ onlineWorkers ws,
        (assign_worker ws jobs plexPath ssh none).1 = some w.id ∧
        ∀ w' ∈ onlineWorkers ws,
          ungatedScore plexPath ssh jobs w ≤ ungatedScore plexPath ssh jobs w') ∧
    (onlineWorkers ws = [] →
      assign_worker ws jobs plexPath ssh none = (none, "local", some plexPath)) := by
  refine ⟨?_, ?_, ?_, ?_⟩
  · intro w _ mode h
    unfold compute_score
    rw [if_neg (by simp; omega)]
    congr 1
    unfold perfCost
    ring
  · intro w _ mode h
    unfold compute_score
    rw [if_pos (by simpa using h)]
  · intro hne hcap
    have hfp : (onlineWorkers ws).filterMap (candidateFor plexPath ssh jobs true) = [] := by
      rw [List.filterMap_eq_nil]
      intro w hw
      exact candidateFor_gated_none plexPath ssh jobs w (hcap w hw)
    obtain ⟨w0, rest, hws⟩ : ∃ w0 rest, onlineWorkers ws = w0 :: rest := by
      rcases hx : onlineWorkers ws with _ | ⟨a, b⟩
      · exact absurd hx hne
      · exact ⟨a, b, rfl⟩
    · have hcands :
          (onlineWorkers ws).filterMap (candidateFor plexPath ssh jobs false) =
          { score := ungatedScore plexPath ssh jobs w0, workerId := w0.id
            mode := (determine_transfer_mode plexPath w0.is_local
              (w0.path_mappings.getD []) ssh).1
            resolved := (determine_transfer_mode plexPath w0.is_local
              (w0.path_mappings.getD []) ssh).2 } ::
            rest.filterMap (candidateFor plexPath ssh jobs false) := by
        rw [hws, List.filterMap_cons, candidateFor_ungated]
      have hres : (assign_worker ws jobs plexPath ssh none).1 =
          some (pickFirstMin
            { score := ungatedScore plexPath ssh jobs w0, workerId := w0.id
              mode := (determine_transfer_mode plexPath w0.is_local
                (w0.path_mappings.getD []) ssh).1
              resolved := (determine_transfer_mode plexPath w0.is_local
                (w0.path_mappings.getD []) ssh).2 }
            (rest.filterMap (candidateFor plexPath ssh jobs false))).workerId := by
        unfold assign_worker
        rw [if_neg (by simp [hws])]
        dsimp only [Option.bind]
        rw [hfp]
        simp only [List.isEmpty_nil, if_true, hcands]
      set c0 : Candidate :=
        { score := ungatedScore plexPath ssh jobs w0, workerId := w0.id
          mode := (determine_transfer_mode plexPath w0.is_local
            (w0.path_mappings.getD []) ssh).1
          resolved := (determine_transfer_mode plexPath w0.is_local
            (w0.path_mappings.getD []) ssh).2 } with hc0
      set cs0 := rest.filterMap (candidateFor plexPath ssh jobs false) with hcs0
      have hmem : pickFirstMin c0 cs0 ∈
          (onlineWorkers ws).filterMap (candidateFor plexPath ssh jobs false) := by
        rw [hcands]
        exact pickFirstMin_mem c0 cs0
      rcases List.mem_filterMap.mp hmem with ⟨w, hw, hwc⟩
      rw [candidateFor_ungated] at hwc
      have hweq := Option.some.inj hwc
      refine ⟨w, hw, ?_, ?_⟩
      · rw [hres, ← hweq]
      · intro w' hw'
        have hmem' :
            ({ score := ungatedScore plexPath ssh jobs w', workerId := w'.id
               mode := (determine_transfer_mode plexPath w'.is_local
                 (w'.path_mappings.getD []) ssh).1
               resolved := (determine_transfer_mode plexPath w'.is_local
                 (w'.path_mappings.getD []) ssh).2 } : Candidate) ∈ c0 :: cs0 := by
          rw [← hcands]
          exact List.mem_filterMap.mpr ⟨w', hw', candidateFor_ungated plexPath ssh jobs w'⟩
        have hle := pickFirstMin_le c0 cs0 _ hmem'
        have hscore : (pickFirstMin c0 cs0).score = ungatedScore plexPath ssh jobs w := by
          rw [← hweq]
        rw [hscore] at hle
        exact hle
  · intro h
    unfold assign_worker
    dsimp only [Option.bind]
    rw [if_pos (by simp [h])]

/-- C1 witness: both sample workers are enabled, online and at capacity, so
the first pass excludes everyone and the scheduler still assigns the worker
with the lowest ungated composite score. -/
theorem C1_witness :
    ∃ w ∈ onlineWorkers [busyWorker1, busyWorker2],
      (assign_worker [busyWorker1, busyWorker2] busyJobs ("/nas/movie.mkv").data
        false none).1 = some w.id ∧
      ∀ w' ∈ onlineWorkers [busyWorker1, busyWorker2],
        ungatedScore ("/nas/movie.mkv").data false busyJobs w ≤
          ungatedScore ("/nas/movie.mkv").data false busyJobs w' :=
  (C1_composite_scoring [busyWorker1, busyWorker2] busyJobs
    ("/nas/movie.mkv").data false).2.2.1 (by decide) (by decide)
